import Mathlib

/-!
Shallow embedding of the ffmpegbox core (admission gate, command synthesizer,
output naming, status lifecycle, configuration validation and accessors),
translated from the Go sources:
  internal/ffmpeg/service.go, internal/models/status.go, internal/models/task.go,
  internal/config/config.go.
Machine integers (Go `int`, `int64`) are modelled as `Int`; the claims proved
here only compare and branch on them, no arithmetic overflow is reachable.
Fallible Go functions returning `error` are modelled with `Except` carrying a
structured error value, one constructor per `errors.Wrapf` site.
-/

namespace Ffmpegbox

/-- Task record (internal/models/task.go, the variant the ffmpeg service
compiles against: integer bitrates and separate width/height fields).
Field defaults are Go zero values, matching `&models.Task{...}` literals. -/
structure Task where
  ID : String := ""
  CreatedAt : Int := 0
  ClientName : String := ""
  InputFilename : String := ""
  OutputFilename : String := ""
  ErrorMessage : String := ""
  OutputFormat : String := ""
  VideoCodec : String := ""
  AudioCodec : String := ""
  VideoBitrate : Int := 0
  AudioBitrate : Int := 0
  Height : Int := 0
  Width : Int := 0
  Framerate : Int := 0
  Preset : String := ""
deriving DecidableEq, Repr

/-- FFmpeg section of the configuration (internal/config/config.go plus the
`MaxWidth`/`MaxHeight` fields the service reads, populated from the parsed
max resolution). -/
structure FFmpegConfig where
  BinaryPath : String := ""
  AllowedOutputFormats : List String := []
  AllowedVideoCodecs : List String := []
  AllowedAudioCodecs : List String := []
  AllowedPresets : List String := []
  MaxResolution : String := ""
  MaxFramerate : Int := 0
  MaxWidth : Int := 0
  MaxHeight : Int := 0
deriving DecidableEq, Repr

/-- Validation errors produced by the admission gate: one constructor per
`errors.Wrapf(models.ErrInvalidParameter, ...)` site in service.go, carrying
the same data the formatted message carries; `wrap` models `errors.Wrap`
adding outer context ("video bitrate" / "audio bitrate"). -/
inductive VErr where
  | outputFormatNotAllowed (format : String) (allowed : List String)
  | videoCodecNotAllowed (codec : String) (allowed : List String)
  | audioCodecNotAllowed (codec : String) (allowed : List String)
  | presetNotAllowed (p : String) (allowed : List String)
  | resolutionNotPositive (width height : Int)
  | widthExceedsMax (width maxW : Int)
  | heightExceedsMax (height maxH : Int)
  | framerateTooSmall (framerate : Int)
  | framerateExceedsMax (framerate maxF : Int)
  | bitrateNotPositive (bitrate : Int)
  | wrap (context : String) (inner : VErr)
deriving DecidableEq, Repr

/-- service.go `isAllowedOutputFormat`: `slices.Contains`. -/
def isAllowedOutputFormat (cfg : FFmpegConfig) (format : String) : Bool :=
  cfg.AllowedOutputFormats.contains format

/-- service.go `isAllowedVideoCodec`. -/
def isAllowedVideoCodec (cfg : FFmpegConfig) (codec : String) : Bool :=
  cfg.AllowedVideoCodecs.contains codec

/-- service.go `isAllowedAudioCodec`. -/
def isAllowedAudioCodec (cfg : FFmpegConfig) (codec : String) : Bool :=
  cfg.AllowedAudioCodecs.contains codec

/-- service.go `isAllowedPreset`. -/
def isAllowedPreset (cfg : FFmpegConfig) (p : String) : Bool :=
  cfg.AllowedPresets.contains p

/-- service.go `validateResolution`. -/
def validateResolution (cfg : FFmpegConfig) (width height : Int) : Except VErr Unit :=
  if width ≤ 0 ∨ height ≤ 0 then
    .error (.resolutionNotPositive width height)
  else if width > cfg.MaxWidth then
    .error (.widthExceedsMax width cfg.MaxWidth)
  else if height > cfg.MaxHeight then
    .error (.heightExceedsMax height cfg.MaxHeight)
  else
    .ok ()

/-- service.go `validateFramerate`. -/
def validateFramerate (cfg : FFmpegConfig) (framerate : Int) : Except VErr Unit :=
  if framerate < 1 then
    .error (.framerateTooSmall framerate)
  else if framerate > cfg.MaxFramerate then
    .error (.framerateExceedsMax framerate cfg.MaxFramerate)
  else
    .ok ()

/-- service.go `validateBitrate`. -/
def validateBitrate (bitrate : Int) : Except VErr Unit :=
  if bitrate ≤ 0 then
    .error (.bitrateNotPositive bitrate)
  else
    .ok ()

/-- service.go `ValidateTask`: the Go early-return chain becomes nested
conditionals; Go's `if field != "" { if !allowed { return err } }` is flattened
to the conjunction guarding the same error. The receiver `*Service` only holds
the config, passed here directly. -/
def ValidateTask (cfg : FFmpegConfig) (task : Task) : Except VErr Unit :=
  if ¬ isAllowedOutputFormat cfg task.OutputFormat then
    .error (.outputFormatNotAllowed task.OutputFormat cfg.AllowedOutputFormats)
  else if task.VideoCodec ≠ "" ∧ ¬ isAllowedVideoCodec cfg task.VideoCodec then
    .error (.videoCodecNotAllowed task.VideoCodec cfg.AllowedVideoCodecs)
  else if task.AudioCodec ≠ "" ∧ ¬ isAllowedAudioCodec cfg task.AudioCodec then
    .error (.audioCodecNotAllowed task.AudioCodec cfg.AllowedAudioCodecs)
  else if task.Preset ≠ "" ∧ ¬ isAllowedPreset cfg task.Preset then
    .error (.presetNotAllowed task.Preset cfg.AllowedPresets)
  else
    match (if task.Width > 0 ∨ task.Height > 0 then
             validateResolution cfg task.Width task.Height
           else .ok ()) with
    | .error e => .error e
    | .ok () =>
      match (if task.Framerate > 0 then validateFramerate cfg task.Framerate else .ok ()) with
      | .error e => .error e
      | .ok () =>
        match (if task.VideoBitrate ≠ 0 then validateBitrate task.VideoBitrate else .ok ()) with
        | .error e => .error (.wrap "video bitrate" e)
        | .ok () =>
          match (if task.AudioBitrate ≠ 0 then validateBitrate task.AudioBitrate else .ok ()) with
          | .error e => .error (.wrap "audio bitrate" e)
          | .ok () => .ok ()

/-- service.go `buildCommandArgs`: sequential conditional appends, in source
order. `strconv.FormatInt`/`strconv.Itoa` are decimal rendering, i.e.
`toString : Int → String`; `fmt.Sprintf("%dx%d", w, h)` is the same with a
literal "x" between. -/
def buildCommandArgs (inputPath outputPath : String) (task : Task) : List String :=
  let args := ["-i", inputPath]
  let args := if task.VideoCodec ≠ "" then args ++ ["-c:v", task.VideoCodec] else args
  let args := if task.AudioCodec ≠ "" then args ++ ["-c:a", task.AudioCodec] else args
  let args := if task.VideoBitrate ≠ 0 then args ++ ["-b:v", toString task.VideoBitrate] else args
  let args := if task.AudioBitrate ≠ 0 then args ++ ["-b:a", toString task.AudioBitrate] else args
  let args := if task.Width > 0 ∧ task.Height > 0 then
      args ++ ["-s", toString task.Width ++ "x" ++ toString task.Height]
    else args
  let args := if task.Framerate > 0 then args ++ ["-r", toString task.Framerate] else args
  let args := if task.Preset ≠ "" then args ++ ["-preset", task.Preset] else args
  args ++ ["-f", task.OutputFormat] ++ ["-y"] ++ [outputPath]

/-- The process invocation `GetVersion` builds (service.go):
`exec.CommandContext(ctx, s.cfg.BinaryPath, "-version")` — the configured
binary with the single static flag. -/
def getVersionCommand (cfg : FFmpegConfig) : String × List String :=
  (cfg.BinaryPath, ["-version"])

/-- Go `strings.Split(s, "\n")` on character lists: the list of separator-free
groups; always at least one group. -/
def splitOnChar (sep : Char) : List Char → List (List Char)
  | [] => [[]]
  | c :: rest =>
    match splitOnChar sep rest with
    | [] => [[]]
    | g :: gs => if c = sep then [] :: g :: gs else (c :: g) :: gs

/-- Go `unicode.IsSpace` restricted to Latin-1 (the characters that occur in
command output): space, tab, newline, vertical tab, form feed, carriage
return, next line, no-break space. -/
def isSpaceGo (c : Char) : Bool :=
  c == ' ' || c == '\t' || c == '\n' || c == '\x0b' || c == '\x0c' || c == '\r' ||
    c == '\u0085' || c == '\u00A0'

/-- Go `strings.TrimSpace`: drop whitespace from both ends. -/
def trimSpace (s : String) : String :=
  ⟨((s.data.dropWhile isSpaceGo).reverse.dropWhile isSpaceGo).reverse⟩

/-- service.go `GetVersion`, as a function of the outcome of `cmd.Output()`
(the exec step itself is ambient): on invocation error wrap it as an
execution error ("failed to get ffmpeg version"), otherwise split the output
on newlines; a first line exists, return it trimmed of surrounding
whitespace, else return the raw output. The error type is the execution-error
string, disjoint from `VErr`. -/
def getVersionResult (output : Except String String) : Except String String :=
  match output with
  | .error e => .error ("failed to get ffmpeg version: " ++ e)
  | .ok out =>
    match splitOnChar '\n' out.data with
    | line :: _ => .ok (trimSpace ⟨line⟩)
    | [] => .ok out

/-- Go `filepath.Ext`: the suffix of the final path element beginning at its
last dot, empty when there is no dot; scans from the end, stopping at the
path separator. -/
def extFromRev : List Char → List Char → String
  | [], _ => ""
  | c :: rest, acc =>
    if c = '/' then ""
    else if c = '.' then ⟨c :: acc⟩
    else extFromRev rest (c :: acc)

/-- Go `filepath.Ext` on the whole path string. -/
def filepathExt (path : String) : String :=
  extFromRev path.data.reverse []

/-- Go `strings.TrimSuffix`: drop the suffix when the string ends with it
(`HasSuffix` then cut), modelled on the character lists. -/
def trimSuffixStr (s suffix : String) : String :=
  if suffix.data.length ≤ s.data.length ∧
      s.data.drop (s.data.length - suffix.data.length) = suffix.data then
    ⟨s.data.take (s.data.length - suffix.data.length)⟩
  else s

/-- service.go `GenerateOutputFilename`: strip the input filename's
extension; if the base is empty fall back to the task id; append
"-processed.<outputFormat>". -/
def GenerateOutputFilename (taskID inputFilename : String) (task : Task) : String :=
  let baseName := trimSuffixStr inputFilename (filepathExt inputFilename)
  let baseName := if baseName = "" then taskID else baseName
  baseName ++ "-processed." ++ task.OutputFormat

/-- internal/models/status.go: `type TaskStatus int`, a named integer type. -/
structure TaskStatus where
  val : Int
deriving DecidableEq, Repr

def StatusNew : TaskStatus := ⟨0⟩

def StatusReadyToStart : TaskStatus := ⟨1⟩

def StatusProcessing : TaskStatus := ⟨2⟩

def StatusCompleted : TaskStatus := ⟨3⟩

def StatusFailed : TaskStatus := ⟨4⟩

/-- status.go `OneOf`: `slices.Contains(statuses, s)` (variadic list). -/
def TaskStatus.OneOf (s : TaskStatus) (statuses : List TaskStatus) : Bool :=
  statuses.contains s

/-- status.go `LimitedList`: the statuses counted towards client task limits
(the receiver is unused in the source as well). -/
def TaskStatus.LimitedList (_ : TaskStatus) : List TaskStatus :=
  [StatusNew, StatusReadyToStart, StatusProcessing]

/-- config.go `isValidResolution`: models
`regexp.MatchString("^\\d+x\\d+$", resolution)` — one or more ASCII digits,
a literal 'x', then one or more ASCII digits, spanning the whole string.
Since a digit is never 'x', a match exists exactly when the maximal leading
digit run is non-empty and is followed by 'x' and a non-empty all-digit
remainder. -/
def isValidResolution (resolution : String) : Bool :=
  match resolution.data.span Char.isDigit with
  | (d1, 'x' :: d2) => !d1.isEmpty && !d2.isEmpty && d2.all Char.isDigit
  | _ => false

/-- Structured configuration errors for `FFmpegConfig.Validate`, one
constructor per failure site in config.go. -/
inductive CfgErr where
  | binaryPathEmpty
  | outputFormatsEmpty
  | videoCodecsEmpty
  | audioCodecsEmpty
  | presetsEmpty
  | invalidMaxResolution (value : String)
  | invalidMaxFramerate (value : Int)
deriving DecidableEq, Repr

/-- config.go `FFmpegConfig.Validate`: binary path non-empty, the four
allow-lists non-empty, max resolution matching the resolution pattern, max
framerate in [1, 240]; first failure wins. -/
def FFmpegConfig.Validate (f : FFmpegConfig) : Except CfgErr Unit :=
  if f.BinaryPath = "" then .error .binaryPathEmpty
  else if f.AllowedOutputFormats.length = 0 then .error .outputFormatsEmpty
  else if f.AllowedVideoCodecs.length = 0 then .error .videoCodecsEmpty
  else if f.AllowedAudioCodecs.length = 0 then .error .audioCodecsEmpty
  else if f.AllowedPresets.length = 0 then .error .presetsEmpty
  else if ¬ isValidResolution f.MaxResolution then
    .error (.invalidMaxResolution f.MaxResolution)
  else if f.MaxFramerate < 1 ∨ f.MaxFramerate > 240 then
    .error (.invalidMaxFramerate f.MaxFramerate)
  else
    .ok ()

/-- config.go `ServerConfig`. -/
structure ServerConfig where
  Port : Int := 0
  ReadTimeout : String := ""
  WriteTimeout : String := ""
  BindAddress : String := ""
deriving DecidableEq, Repr

/-- config.go `ProcessingConfig`. -/
structure ProcessingConfig where
  GlobalMaxParallelTasks : Int := 0
  WorkerCount : Int := 0
  MaxFileSizeMB : Int := 0
  TaskTimeout : String := ""
  CleanupAge : String := ""
deriving DecidableEq, Repr

/-! Model of Go `time.ParseDuration` (stdlib), which the config accessors
call: grammar `[-+]?([0-9]*(\.[0-9]*)?[a-z]+)+`, units ns/us/µs/μs/ms/s/m/h,
accumulating nanoseconds in a uint64 with overflow checks at 2^63.
Every error path of the Go function returns the zero duration together with
the error; the model mirrors that by construction of `parseDuration`. -/

/-- Go `leadingInt`: consume leading decimal digits into an accumulator;
`none` models the overflow error (checked against 2^63/10 before the
multiply-add and against 2^63 after). -/
def leadingInt : List Char → Nat → Option (Nat × List Char)
  | [], x => some (x, [])
  | c :: rest, x =>
    if c < '0' ∨ '9' < c then some (x, c :: rest)
    else if x > 2 ^ 63 / 10 then none
    else
      let y := x * 10 + (c.toNat - '0'.toNat)
      if y > 2 ^ 63 then none
      else leadingInt rest y

/-- Go `leadingFraction`: consume digits after the decimal point, tracking
the power-of-ten scale; once the accumulator would overflow, further digits
are skipped (the `overflow` flag). -/
def leadingFraction : List Char → Nat → Nat → Bool → Nat × Nat × List Char
  | [], x, scale, _ => (x, scale, [])
  | c :: rest, x, scale, overflow =>
    if c < '0' ∨ '9' < c then (x, scale, c :: rest)
    else if overflow then leadingFraction rest x scale true
    else if x > (2 ^ 63 - 1) / 10 then leadingFraction rest x scale true
    else
      let y := x * 10 + (c.toNat - '0'.toNat)
      if y > 2 ^ 63 then leadingFraction rest x scale true
      else leadingFraction rest y (scale * 10) false

/-- Go `unitMap`: nanoseconds per duration unit. -/
def unitMap : List Char → Option Nat
  | ['n', 's'] => some 1
  | ['u', 's'] => some 1000
  | ['µ', 's'] => some 1000
  | ['μ', 's'] => some 1000
  | ['m', 's'] => some 1000000
  | ['s'] => some 1000000000
  | ['m'] => some 60000000000
  | ['h'] => some 3600000000000
  | _ => none

/-- The unit-scan break condition in ParseDuration's loop: '.' or a digit. -/
def isDotOrDigit (c : Char) : Bool :=
  c == '.' || c.isDigit

/-- Tail of one ParseDuration loop iteration after the numeric part: scan the
unit name (must be non-empty and known), apply the unit with overflow checks,
add the fractional contribution. Go computes the fraction contribution as
`uint64(float64(f) * (float64(unit)/scale))`; the model computes the same
quantity exactly in integers as `f * unit / scale`. -/
def durationUnitStep (v f scale : Nat) (s2 : List Char) : Option (Nat × List Char) :=
  let u := s2.takeWhile (fun c => ¬ isDotOrDigit c)
  let s3 := s2.dropWhile (fun c => ¬ isDotOrDigit c)
  if u.isEmpty then none
  else
    match unitMap u with
    | none => none
    | some unit =>
      if v > 2 ^ 63 / unit then none
      else
        let vu := v * unit
        if f > 0 then
          let vf := vu + f * unit / scale
          if vf > 2 ^ 63 then none else some (vf, s3)
        else some (vu, s3)

/-- One iteration of ParseDuration's loop: leading digits, optional fraction,
then the unit; `none` is any of the Go error returns (bad leading character,
overflow, no digits, missing or unknown unit). Only called on non-empty
input; `[]` is unreachable there. -/
def durationIter (s : List Char) : Option (Nat × List Char) :=
  match s with
  | [] => none
  | c0 :: _ =>
    if ¬ (c0 = '.' ∨ c0.isDigit) then none
    else
      match leadingInt s 0 with
      | none => none
      | some (v, s1) =>
        let pre : Bool := s1.length != s.length
        match s1 with
        | c1 :: s1' =>
          if c1 = '.' then
            let lf := leadingFraction s1' 0 1 false
            let post : Bool := lf.2.2.length != s1'.length
            if pre = false ∧ post = false then none
            else durationUnitStep v lf.1 lf.2.1 lf.2.2
          else if pre = false then none
          else durationUnitStep v 0 1 (c1 :: s1')
        | [] =>
          if pre = false then none
          else durationUnitStep v 0 1 []

theorem leadingInt_rem_length (s : List Char) (x : Nat) :
    ∀ v rem, leadingInt s x = some (v, rem) → rem.length ≤ s.length := by
  induction s generalizing x with
  | nil =>
    intro v rem h
    simp only [leadingInt, Option.some.injEq, Prod.mk.injEq] at h
    simp [← h.2]
  | cons c rest ih =>
    intro v rem h
    simp only [leadingInt] at h
    split at h
    · simp only [Option.some.injEq, Prod.mk.injEq] at h
      simp [← h.2]
    · split at h
      · exact absurd h (by simp)
      · split at h
        · exact absurd h (by simp)
        · exact Nat.le_succ_of_le (ih _ _ _ h)

theorem leadingFraction_rem_length (s : List Char) (x scale : Nat) (ov : Bool) :
    (leadingFraction s x scale ov).2.2.length ≤ s.length := by
  induction s generalizing x scale ov with
  | nil => simp [leadingFraction]
  | cons c rest ih =>
    simp only [leadingFraction]
    split
    · simp
    · split
      · exact Nat.le_succ_of_le (ih _ _ _)
      · split
        · exact Nat.le_succ_of_le (ih _ _ _)
        · split
          · exact Nat.le_succ_of_le (ih _ _ _)
          · exact Nat.le_succ_of_le (ih _ _ _)

theorem dropWhile_length_lt {α : Type} {p : α → Bool} (l : List α)
    (h : l.takeWhile p ≠ []) : (l.dropWhile p).length < l.length := by
  match l with
  | [] => simp at h
  | c :: t =>
    by_cases hp : p c
    · rw [List.dropWhile_cons_of_pos hp]
      have : (t.dropWhile p).length ≤ t.length := by
        have hsub := List.IsSuffix.sublist ⟨t.takeWhile p, List.takeWhile_append_dropWhile p t⟩
        exact hsub.length_le
      simpa [List.length_cons] using Nat.lt_succ_of_le this
    · rw [List.takeWhile_cons_of_neg hp] at h
      simp at h

theorem durationUnitStep_rem_lt (v f scale : Nat) (s2 : List Char) (r : Nat × List Char)
    (h : durationUnitStep v f scale s2 = some r) : r.2.length < s2.length := by
  simp only [durationUnitStep] at h
  split at h
  · exact absurd h (by simp)
  · rename_i hne
    split at h
    · exact absurd h (by simp)
    · split at h
      · exact absurd h (by simp)
      · have hlt : (s2.dropWhile (fun c => ¬ isDotOrDigit c)).length < s2.length := by
          refine dropWhile_length_lt s2 ?_
          simpa [List.isEmpty_iff] using hne
        split at h
        · split at h
          · exact absurd h (by simp)
          · simp only [Option.some.injEq] at h
            simpa [← h] using hlt
        · simp only [Option.some.injEq] at h
          simpa [← h] using hlt

theorem durationIter_rem_lt (s : List Char) (v : Nat) (rem : List Char)
    (h : durationIter s = some (v, rem)) : rem.length < s.length := by
  match s with
  | [] => simp [durationIter] at h
  | c0 :: srest =>
    simp only [durationIter] at h
    split at h
    · exact absurd h (by simp)
    · split at h
      · exact absurd h (by simp)
      · rename_i v0 s1 hli
        have hs1 : s1.length ≤ (c0 :: srest).length := leadingInt_rem_length _ _ _ _ hli
        split at h
        · rename_i c1 s1'
          have hs1' : s1'.length + 1 ≤ (c0 :: srest).length := by
            simpa using hs1
          split at h
          · have hs2 : (leadingFraction s1' 0 1 false).2.2.length ≤ s1'.length :=
              leadingFraction_rem_length s1' 0 1 false
            split at h
            · exact absurd h (by simp)
            · have := durationUnitStep_rem_lt _ _ _ _ _ h
              simp only at this
              omega
          · split at h
            · exact absurd h (by simp)
            · have := durationUnitStep_rem_lt _ _ _ _ _ h
              simp only [List.length_cons] at this
              omega
        · split at h
          · exact absurd h (by simp)
          · have := durationUnitStep_rem_lt _ _ _ _ _ h
            simp only [List.length_nil] at this
            omega

/-- The main loop of Go `time.ParseDuration`: repeat iterations while input
remains, accumulating nanoseconds with an overflow check at 2^63; `none`
models any error return. Structured with explicit fuel; every iteration
consumes at least one character (`durationIter_rem_lt`), so with fuel
exceeding the input length the fuel never runs out
(`parseDurationLoop_fuel_irrelevant`) and the loop behaves as Go's
unbounded one. -/
def parseDurationLoop (fuel : Nat) (s : List Char) (d : Nat) : Option Nat :=
  match fuel with
  | 0 => none
  | fuel + 1 =>
    match s with
    | [] => some d
    | _ :: _ =>
      match durationIter s with
      | none => none
      | some (v, rest) =>
        if d + v > 2 ^ 63 then none
        else parseDurationLoop fuel rest (d + v)

theorem parseDurationLoop_fuel_irrelevant (fuel : Nat) :
    ∀ (fuel' : Nat) (s : List Char) (d : Nat), s.length < fuel → s.length < fuel' →
      parseDurationLoop fuel s d = parseDurationLoop fuel' s d := by
  induction fuel with
  | zero => intro fuel' s d h h'; omega
  | succ f ih =>
    intro fuel' s d h h'
    match fuel' with
    | 0 => omega
    | f' + 1 =>
      match s with
      | [] => rfl
      | c :: t =>
        simp only [parseDurationLoop]
        cases hit : durationIter (c :: t) with
        | none => rfl
        | some pr =>
          obtain ⟨v, rest⟩ := pr
          have hlt := durationIter_rem_lt _ _ _ hit
          split
          · rfl
          · rename_i v2 rest2 heq2
            obtain ⟨hv, hrest⟩ : v = v2 ∧ rest = rest2 := by simpa using heq2
            subst hv
            subst hrest
            split
            · rfl
            · apply ih
              · simp only [List.length_cons] at h hlt
                omega
              · simp only [List.length_cons] at h' hlt
                omega

/-- Go conversion of a uint64 bit pattern to int64 (two's complement). -/
def int64OfNat (n : Nat) : Int :=
  let m : Nat := n % 2 ^ 64
  if m < 2 ^ 63 then (m : Int) else (m : Int) - 2 ^ 64

/-- Go `time.ParseDuration` as a total function returning the pair the Go
function returns: the duration in nanoseconds and whether an error occurred
(every Go error return carries duration 0). Sign handling, the "0" special
case, and the final negation/overflow checks follow the source; a negative
result is the two's-complement negation of the accumulator. -/
def parseDuration (s : String) : Int × Bool :=
  let cs := s.data
  let signStep : Bool × List Char :=
    match cs with
    | c :: rest => if c == '-' || c == '+' then (c == '-', rest) else (false, cs)
    | [] => (false, cs)
  let neg := signStep.1
  let cs1 := signStep.2
  if cs1 = ['0'] then (0, false)
  else if cs1 = [] then (0, true)
  else
    match parseDurationLoop (cs1.length + 1) cs1 0 with
    | none => (0, true)
    | some d =>
      if neg then (int64OfNat (2 ^ 64 - d), false)
      else if d > 2 ^ 63 - 1 then (0, true)
      else ((d : Int), false)

/-- config.go `ServerConfig.GetReadTimeout`: `d, _ := time.ParseDuration(...)`
discards the error and returns the duration value. -/
def ServerConfig.GetReadTimeout (s : ServerConfig) : Int :=
  (parseDuration s.ReadTimeout).1

/-- config.go `ServerConfig.GetWriteTimeout`. -/
def ServerConfig.GetWriteTimeout (s : ServerConfig) : Int :=
  (parseDuration s.WriteTimeout).1

/-- config.go `ProcessingConfig.GetTaskTimeout`. -/
def ProcessingConfig.GetTaskTimeout (p : ProcessingConfig) : Int :=
  (parseDuration p.TaskTimeout).1

/-- config.go `ProcessingConfig.GetCleanupAge`. -/
def ProcessingConfig.GetCleanupAge (p : ProcessingConfig) : Int :=
  (parseDuration p.CleanupAge).1

theorem ite_append_shift {α : Type} (c : Prop) [Decidable c] (a x : List α) :
    (if c then a ++ x else a) = a ++ (if c then x else []) := by
  split <;> simp

/-- C2: `buildCommandArgs` returns exactly "-i" inputPath, then each optional
flag pair in the fixed order ("-c:v", "-c:a", "-b:v", "-b:a", "-s" when both
dimensions are positive, "-r", "-preset"), each present iff its field is
non-empty/non-zero, followed unconditionally by "-f" outputFormat, "-y",
outputPath; a Task with only outputFormat set synthesizes to exactly
[-i, in, -f, fmt, -y, out], and a Task with all optional fields set produces
every flag in this order. -/
theorem C2_buildCommandArgs_shape :
    (∀ (inputPath outputPath : String) (task : Task),
      buildCommandArgs inputPath outputPath task =
        ["-i", inputPath]
        ++ (if task.VideoCodec ≠ "" then ["-c:v", task.VideoCodec] else [])
        ++ (if task.AudioCodec ≠ "" then ["-c:a", task.AudioCodec] else [])
        ++ (if task.VideoBitrate ≠ 0 then ["-b:v", toString task.VideoBitrate] else [])
        ++ (if task.AudioBitrate ≠ 0 then ["-b:a", toString task.AudioBitrate] else [])
        ++ (if task.Width > 0 ∧ task.Height > 0 then
              ["-s", toString task.Width ++ "x" ++ toString task.Height] else [])
        ++ (if task.Framerate > 0 then ["-r", toString task.Framerate] else [])
        ++ (if task.Preset ≠ "" then ["-preset", task.Preset] else [])
        ++ ["-f", task.OutputFormat, "-y", outputPath]) ∧
    (∀ (inPath outPath fmt : String),
      buildCommandArgs inPath outPath { OutputFormat := fmt } =
        ["-i", inPath, "-f", fmt, "-y", outPath]) ∧
    buildCommandArgs "/tmp/input.avi" "/tmp/output.mp4"
        { OutputFormat := "mp4", VideoCodec := "libx264", AudioCodec := "aac",
          VideoBitrate := 2000000, AudioBitrate := 128000,
          Width := 1920, Height := 1080, Framerate := 30, Preset := "medium" } =
      ["-i", "/tmp/input.avi", "-c:v", "libx264", "-c:a", "aac",
       "-b:v", "2000000", "-b:a", "128000", "-s", "1920x1080", "-r", "30",
       "-preset", "medium", "-f", "mp4", "-y", "/tmp/output.mp4"] := by
  refine ⟨?_, ?_, ?_⟩
  · intro inputPath outputPath task
    simp only [buildCommandArgs, ite_append_shift]
    simp only [List.append_assoc, List.cons_append, List.singleton_append, List.nil_append]
  · intro inPath outPath fmt
    rfl
  · rfl

/-- C7: `GenerateOutputFilename` strips the input filename's extension, falls
back to the task id when the remaining base is empty, and returns
"<base>-processed.<outputFormat>"; concretely ("t1", "video.avi", mp4) ↦
"video-processed.mp4", ("t1", "videofile", webm) ↦ "videofile-processed.webm",
("t1", "", mp3) ↦ "t1-processed.mp3". -/
theorem C7_generateOutputFilename :
    (∀ (taskID inputFilename : String) (task : Task),
      GenerateOutputFilename taskID inputFilename task =
        (if trimSuffixStr inputFilename (filepathExt inputFilename) = "" then taskID
         else trimSuffixStr inputFilename (filepathExt inputFilename))
          ++ "-processed." ++ task.OutputFormat) ∧
    GenerateOutputFilename "t1" "video.avi" { OutputFormat := "mp4" } =
      "video-processed.mp4" ∧
    GenerateOutputFilename "t1" "videofile" { OutputFormat := "webm" } =
      "videofile-processed.webm" ∧
    GenerateOutputFilename "t1" "" { OutputFormat := "mp3" } = "t1-processed.mp3" := by
  refine ⟨fun taskID inputFilename task => rfl, by decide, by decide, by decide⟩

/-- C9: the limited status list is exactly {new, ready_to_start, processing}:
a status is in it iff it is one of those three; completed and failed are
never in it; and of three tasks with statuses {new, processing, completed}
exactly 2 are in the limited set. -/
theorem C9_limitedList :
    (∀ s : TaskStatus, s.OneOf (s.LimitedList) = true ↔
       s = StatusNew ∨ s = StatusReadyToStart ∨ s = StatusProcessing) ∧
    StatusCompleted.OneOf (StatusCompleted.LimitedList) = false ∧
    StatusFailed.OneOf (StatusFailed.LimitedList) = false ∧
    ([StatusNew, StatusProcessing, StatusCompleted].filter
        (fun s => s.OneOf (s.LimitedList))).length = 2 := by
  refine ⟨?_, by decide, by decide, by decide⟩
  intro s
  simp [TaskStatus.OneOf, TaskStatus.LimitedList, List.contains]

/-- C6 (amended): `GetVersion` invokes the configured binary with the single
static flag "-version"; an invocation failure is wrapped as an execution
error (never a validation error — the error type is the execution-error
string); on success the first line of the output is returned trimmed; a
successful invocation never yields an error — in particular empty output
yields the empty string, not an execution error. -/
theorem C6_getVersion :
    (∀ cfg : FFmpegConfig, getVersionCommand cfg = (cfg.BinaryPath, ["-version"])) ∧
    (∀ e : String, getVersionResult (Except.error e) =
       Except.error ("failed to get ffmpeg version: " ++ e)) ∧
    (∀ out : String, (getVersionResult (Except.ok out)).isOk = true) ∧
    getVersionResult (Except.ok " ffmpeg version 6.0 \nbuilt with gcc\n") =
      Except.ok "ffmpeg version 6.0" ∧
    getVersionResult (Except.ok "") = Except.ok "" := by
  refine ⟨fun cfg => rfl, fun e => rfl, ?_, rfl, rfl⟩
  intro out
  unfold getVersionResult
  cases h : splitOnChar '\n' out.data <;> simp [h, Except.isOk, Except.toBool]

/-- C6 counterexample to the claim as stated: empty output from a successful
invocation is NOT surfaced as an execution error; the result is a successful
(empty) version string. -/
theorem C6_empty_output_not_error : (getVersionResult (Except.ok "")).isOk = true := by
  rfl

theorem ValidateTask_eq_tail (cfg : FFmpegConfig) (task : Task)
    (hfmt : task.OutputFormat ∈ cfg.AllowedOutputFormats)
    (hvc : task.VideoCodec = "") (hac : task.AudioCodec = "") (hps : task.Preset = "") :
    ValidateTask cfg task =
      (match (if task.Width > 0 ∨ task.Height > 0 then
               validateResolution cfg task.Width task.Height else .ok ()) with
      | .error e => .error e
      | .ok () =>
        match (if task.Framerate > 0 then validateFramerate cfg task.Framerate else .ok ()) with
        | .error e => .error e
        | .ok () =>
          match (if task.VideoBitrate ≠ 0 then validateBitrate task.VideoBitrate
                 else .ok ()) with
          | .error e => .error (.wrap "video bitrate" e)
          | .ok () =>
            match (if task.AudioBitrate ≠ 0 then validateBitrate task.AudioBitrate
                   else .ok ()) with
            | .error e => .error (.wrap "audio bitrate" e)
            | .ok () => .ok ()) := by
  simp [ValidateTask, isAllowedOutputFormat, List.contains, hfmt, hvc, hac, hps]

/-- C1: a Task whose output format is not in the configured allow-list is
rejected by `ValidateTask` with a validation error carrying the rejected
format and the allowed list; a Task whose format is allowed and whose
optional fields (codecs, preset, width, height, framerate, bitrates) are all
empty/zero passes validation. -/
theorem C1_output_format_gate (cfg : FFmpegConfig) (task : Task) :
    (task.OutputFormat ∉ cfg.AllowedOutputFormats →
      ValidateTask cfg task =
        .error (.outputFormatNotAllowed task.OutputFormat cfg.AllowedOutputFormats)) ∧
    (task.OutputFormat ∈ cfg.AllowedOutputFormats →
      task.VideoCodec = "" → task.AudioCodec = "" → task.Preset = "" →
      task.Width = 0 → task.Height = 0 → task.Framerate = 0 →
      task.VideoBitrate = 0 → task.AudioBitrate = 0 →
      ValidateTask cfg task = .ok ()) := by
  constructor
  · intro h
    simp [ValidateTask, isAllowedOutputFormat, List.contains, h]
  · intro h h1 h2 h3 h4 h5 h6 h7 h8
    rw [ValidateTask_eq_tail cfg task h h1 h2 h3]
    simp [h4, h5, h6, h7, h8]

/-- C3: with the earlier checks passing, a Task with exactly one of
width/height zero-or-negative and the other positive fails with the
"dimensions must be positive" error; with both positive, a width above the
configured maximum fails citing width, and a width within bounds with a
height above its maximum fails citing height (the two failures are distinct
error values); with both zero the resolution check is skipped entirely (the
result does not depend on the configured maxima). -/
theorem C3_resolution_checks (cfg : FFmpegConfig) (task : Task)
    (h1 : task.OutputFormat ∈ cfg.AllowedOutputFormats)
    (h2 : task.VideoCodec = "") (h3 : task.AudioCodec = "") (h4 : task.Preset = "") :
    ((task.Width ≤ 0 ∧ 0 < task.Height) ∨ (0 < task.Width ∧ task.Height ≤ 0) →
      ValidateTask cfg task = .error (.resolutionNotPositive task.Width task.Height)) ∧
    (0 < task.Width → 0 < task.Height → cfg.MaxWidth < task.Width →
      ValidateTask cfg task = .error (.widthExceedsMax task.Width cfg.MaxWidth)) ∧
    (0 < task.Width → 0 < task.Height → task.Width ≤ cfg.MaxWidth →
      cfg.MaxHeight < task.Height →
      ValidateTask cfg task = .error (.heightExceedsMax task.Height cfg.MaxHeight)) ∧
    (task.Width = 0 → task.Height = 0 → ∀ mw mh : Int,
      ValidateTask { cfg with MaxWidth := mw, MaxHeight := mh } task =
        ValidateTask cfg task) := by
  refine ⟨?_, ?_, ?_, ?_⟩
  · intro hx
    rw [ValidateTask_eq_tail cfg task h1 h2 h3 h4]
    rcases hx with ⟨hw, hh⟩ | ⟨hw, hh⟩
    · rw [if_pos (Or.inr hh)]
      simp [validateResolution, hw]
    · rw [if_pos (Or.inl hw)]
      simp [validateResolution, hh]
  · intro hw hh hmax
    rw [ValidateTask_eq_tail cfg task h1 h2 h3 h4]
    rw [if_pos (Or.inl hw)]
    simp only [validateResolution]
    rw [if_neg (by omega : ¬ (task.Width ≤ 0 ∨ task.Height ≤ 0)), if_pos hmax]
  · intro hw hh hwok hmax
    rw [ValidateTask_eq_tail cfg task h1 h2 h3 h4]
    rw [if_pos (Or.inl hw)]
    simp only [validateResolution]
    rw [if_neg (by omega : ¬ (task.Width ≤ 0 ∨ task.Height ≤ 0)),
      if_neg (by omega : ¬ task.Width > cfg.MaxWidth), if_pos hmax]
  · intro hw hh mw mh
    rw [ValidateTask_eq_tail { cfg with MaxWidth := mw, MaxHeight := mh } task h1 h2 h3 h4,
      ValidateTask_eq_tail cfg task h1 h2 h3 h4]
    simp [hw, hh, validateFramerate]

/-- C4: with the earlier checks passing and resolution/framerate unset, a
zero video (audio) bitrate skips its check so the task can pass validation;
a negative one fails with the "bitrate must be positive" error wrapped in
"video bitrate" ("audio bitrate") context; any non-negative pair (zero
skipped or strictly positive passing) validates successfully. -/
theorem C4_bitrate_checks (cfg : FFmpegConfig) (task : Task)
    (h1 : task.OutputFormat ∈ cfg.AllowedOutputFormats)
    (h2 : task.VideoCodec = "") (h3 : task.AudioCodec = "") (h4 : task.Preset = "")
    (h5 : task.Width = 0) (h6 : task.Height = 0) (h7 : task.Framerate = 0) :
    (task.VideoBitrate < 0 →
      ValidateTask cfg task =
        .error (.wrap "video bitrate" (.bitrateNotPositive task.VideoBitrate))) ∧
    (0 ≤ task.VideoBitrate → task.AudioBitrate < 0 →
      ValidateTask cfg task =
        .error (.wrap "audio bitrate" (.bitrateNotPositive task.AudioBitrate))) ∧
    (0 ≤ task.VideoBitrate → 0 ≤ task.AudioBitrate →
      ValidateTask cfg task = .ok ()) := by
  refine ⟨?_, ?_, ?_⟩
  · intro hv
    rw [ValidateTask_eq_tail cfg task h1 h2 h3 h4]
    have hne : task.VideoBitrate ≠ 0 := by omega
    have hle : task.VideoBitrate ≤ 0 := le_of_lt hv
    simp [h5, h6, h7, hne, validateBitrate, hle]
  · intro hv ha
    rw [ValidateTask_eq_tail cfg task h1 h2 h3 h4]
    have hane : task.AudioBitrate ≠ 0 := by omega
    have hale : task.AudioBitrate ≤ 0 := le_of_lt ha
    by_cases hvz : task.VideoBitrate = 0
    · simp [h5, h6, h7, hvz, hane, validateBitrate, hale]
    · have hvpos : ¬ task.VideoBitrate ≤ 0 := by omega
      simp [h5, h6, h7, hvz, hane, validateBitrate, hale, hvpos]
  · intro hv ha
    rw [ValidateTask_eq_tail cfg task h1 h2 h3 h4]
    by_cases hvz : task.VideoBitrate = 0 <;> by_cases haz : task.AudioBitrate = 0
    · simp [h5, h6, h7, hvz, haz]
    · have hapos : ¬ task.AudioBitrate ≤ 0 := by omega
      simp [h5, h6, h7, hvz, haz, validateBitrate, hapos]
    · have hvpos : ¬ task.VideoBitrate ≤ 0 := by omega
      simp [h5, h6, h7, hvz, haz, validateBitrate, hvpos]
    · have hvpos : ¬ task.VideoBitrate ≤ 0 := by omega
      have hapos : ¬ task.AudioBitrate ≤ 0 := by omega
      simp [h5, h6, h7, hvz, haz, validateBitrate, hvpos, hapos]

/-- C8: with the earlier checks passing and resolution/bitrates unset, a
non-positive framerate skips the framerate check entirely (the result does
not depend on the configured maximum, and validation succeeds); a positive
framerate passes validation iff 1 ≤ framerate ≤ MaxFramerate, and a
framerate above the maximum fails with the "exceeds maximum" error. -/
theorem C8_framerate_checks (cfg : FFmpegConfig) (task : Task)
    (h1 : task.OutputFormat ∈ cfg.AllowedOutputFormats)
    (h2 : task.VideoCodec = "") (h3 : task.AudioCodec = "") (h4 : task.Preset = "")
    (h5 : task.Width = 0) (h6 : task.Height = 0)
    (h7 : task.VideoBitrate = 0) (h8 : task.AudioBitrate = 0) :
    (task.Framerate ≤ 0 →
      (∀ mf : Int, ValidateTask { cfg with MaxFramerate := mf } task =
        ValidateTask cfg task) ∧
      ValidateTask cfg task = .ok ()) ∧
    (0 < task.Framerate →
      (ValidateTask cfg task = .ok () ↔
        1 ≤ task.Framerate ∧ task.Framerate ≤ cfg.MaxFramerate)) ∧
    (0 < task.Framerate → cfg.MaxFramerate < task.Framerate →
      ValidateTask cfg task = .error (.framerateExceedsMax task.Framerate cfg.MaxFramerate)) := by
  refine ⟨?_, ?_, ?_⟩
  · intro hf
    have hnotpos : ¬ task.Framerate > 0 := by omega
    constructor
    · intro mf
      rw [ValidateTask_eq_tail { cfg with MaxFramerate := mf } task h1 h2 h3 h4,
        ValidateTask_eq_tail cfg task h1 h2 h3 h4]
      simp [h5, h6, h7, h8, hnotpos]
    · rw [ValidateTask_eq_tail cfg task h1 h2 h3 h4]
      simp [h5, h6, h7, h8, hnotpos]
  · intro hf
    rw [ValidateTask_eq_tail cfg task h1 h2 h3 h4]
    have hnl : ¬ task.Framerate < 1 := by omega
    by_cases hm : task.Framerate > cfg.MaxFramerate
    · simp [h5, h6, h7, h8, hf, validateFramerate, hnl, hm]
    · simp [h5, h6, h7, h8, hf, validateFramerate, hnl, hm]
      omega
  · intro hf hm
    rw [ValidateTask_eq_tail cfg task h1 h2 h3 h4]
    have hnl : ¬ task.Framerate < 1 := by omega
    simp [h5, h6, h7, h8, hf, validateFramerate, hnl, hm]

theorem takeWhile_all_append {α : Type} (p : α → Bool) (l1 l2 : List α) (x : α)
    (h1 : ∀ a ∈ l1, p a = true) (hx : p x = false) :
    (l1 ++ x :: l2).takeWhile p = l1 := by
  induction l1 with
  | nil => simp [List.takeWhile_cons, hx]
  | cons a t ih =>
    have hpa : p a = true := h1 a (List.mem_cons_self a t)
    simp [List.takeWhile_cons, hpa, ih (fun b hb => h1 b (List.mem_cons_of_mem a hb))]

theorem dropWhile_all_append {α : Type} (p : α → Bool) (l1 l2 : List α) (x : α)
    (h1 : ∀ a ∈ l1, p a = true) (hx : p x = false) :
    (l1 ++ x :: l2).dropWhile p = x :: l2 := by
  induction l1 with
  | nil => simp [List.dropWhile_cons, hx]
  | cons a t ih =>
    have hpa : p a = true := h1 a (List.mem_cons_self a t)
    simp [List.dropWhile_cons, hpa, ih (fun b hb => h1 b (List.mem_cons_of_mem a hb))]

/-- Characterisation: `isValidResolution` recognises exactly the strings of
the regular expression `^\d+x\d+$`: a non-empty digit run, an 'x', a
non-empty digit run. -/
theorem isValidResolution_iff (resolution : String) :
    isValidResolution resolution = true ↔
      ∃ d1 d2 : List Char, resolution.data = d1 ++ 'x' :: d2 ∧ d1 ≠ [] ∧ d2 ≠ [] ∧
        (∀ c ∈ d1, c.isDigit = true) ∧ (∀ c ∈ d2, c.isDigit = true) := by
  unfold isValidResolution
  rw [List.span_eq_take_drop]
  constructor
  · intro h
    split at h
    · rename_i d1 d2 heq
      obtain ⟨ht, hd⟩ : resolution.data.takeWhile Char.isDigit = d1 ∧
          resolution.data.dropWhile Char.isDigit = 'x' :: d2 := by
        simpa [Prod.ext_iff] using heq
      simp only [Bool.and_eq_true, Bool.not_eq_true', List.all_eq_true] at h
      obtain ⟨⟨he1, he2⟩, hall⟩ := h
      have hne1 : d1 ≠ [] := by
        intro hnil
        subst hnil
        simp at he1
      have hne2 : d2 ≠ [] := by
        intro hnil
        subst hnil
        simp at he2
      refine ⟨d1, d2, ?_, hne1, hne2, ?_, hall⟩
      · conv_lhs =>
          rw [← List.takeWhile_append_dropWhile (p := Char.isDigit) (l := resolution.data)]
        rw [ht, hd]
      · intro c hc
        rw [← ht] at hc
        exact List.mem_takeWhile_imp hc
    · simp at h
  · rintro ⟨d1, d2, hsplit, h1, h2, hd1, hd2⟩
    have hx : Char.isDigit 'x' = false := rfl
    have ht : resolution.data.takeWhile Char.isDigit = d1 := by
      rw [hsplit]
      exact takeWhile_all_append _ _ _ _ hd1 hx
    have hdw : resolution.data.dropWhile Char.isDigit = 'x' :: d2 := by
      rw [hsplit]
      exact dropWhile_all_append _ _ _ _ hd1 hx
    rw [ht, hdw]
    simp [h1, h2, List.all_eq_true]
    exact hd2

/-- C5 (amended): `FFmpegConfig.Validate` succeeds iff the binary path is
non-empty, all four allow-lists are non-empty, the max resolution string
matches `^\d+x\d+$`, and the max framerate lies in [1, 240]. The components
of the resolution are NOT range-checked at load time — "0x0" matches the
pattern and is accepted; the ≥ 1 check lives only in `ParseResolution`,
which `Validate` does not call. -/
theorem C5_ffmpeg_config_validate (f : FFmpegConfig) :
    f.Validate = .ok () ↔
      f.BinaryPath ≠ "" ∧ f.AllowedOutputFormats ≠ [] ∧ f.AllowedVideoCodecs ≠ [] ∧
      f.AllowedAudioCodecs ≠ [] ∧ f.AllowedPresets ≠ [] ∧
      (∃ d1 d2 : List Char, f.MaxResolution.data = d1 ++ 'x' :: d2 ∧ d1 ≠ [] ∧ d2 ≠ [] ∧
        (∀ c ∈ d1, c.isDigit = true) ∧ (∀ c ∈ d2, c.isDigit = true)) ∧
      1 ≤ f.MaxFramerate ∧ f.MaxFramerate ≤ 240 := by
  rw [← isValidResolution_iff]
  unfold FFmpegConfig.Validate
  split_ifs with hb ho hv ha hp hr hf
  · simp [hb]
  · simp [List.length_eq_zero] at ho
    simp [ho]
  · simp [List.length_eq_zero] at hv
    simp [hv]
  · simp [List.length_eq_zero] at ha
    simp [ha]
  · simp [List.length_eq_zero] at hp
    simp [hp]
  · simp only [List.length_eq_zero] at ho hv ha hp
    simp [hb, ho, hv, ha, hp, hr]
    intros
    omega
  · simp only [List.length_eq_zero] at ho hv ha hp
    push_neg at hf
    simp [hb, ho, hv, ha, hp, hr]
    omega
  · simp [hr]

/-- C5 counterexample to the claim as stated: a configuration whose max
resolution is "0x0" (both components zero) passes `FFmpegConfig.Validate`,
so a zero component is NOT rejected at load time. -/
theorem C5_zero_resolution_accepted :
    FFmpegConfig.Validate
      { BinaryPath := "/usr/bin/ffmpeg", AllowedOutputFormats := ["mp4"],
        AllowedVideoCodecs := ["libx264"], AllowedAudioCodecs := ["aac"],
        AllowedPresets := ["medium"], MaxResolution := "0x0", MaxFramerate := 30,
        MaxWidth := 0, MaxHeight := 0 } = Except.ok () := by
  rfl

theorem parseDuration_cases (s : String) :
    parseDuration s = (0, true) ∨ (parseDuration s).2 = false := by
  simp only [parseDuration]
  split
  · right
    rfl
  · split
    · left
      rfl
    · split
      · left
        rfl
      · split
        · right
          rfl
        · split
          · left
            rfl
          · right
            rfl

/-- C10: every Go error return of the duration parser carries the zero
duration, and the config accessors discard the error, so on a stored
duration string that does not parse, GetReadTimeout / GetWriteTimeout /
GetTaskTimeout / GetCleanupAge silently return the zero duration instead of
failing (they are total functions into durations). -/
theorem C10_duration_accessors (sc : ServerConfig) (pc : ProcessingConfig) :
    ((parseDuration sc.ReadTimeout).2 = true → sc.GetReadTimeout = 0) ∧
    ((parseDuration sc.WriteTimeout).2 = true → sc.GetWriteTimeout = 0) ∧
    ((parseDuration pc.TaskTimeout).2 = true → pc.GetTaskTimeout = 0) ∧
    ((parseDuration pc.CleanupAge).2 = true → pc.GetCleanupAge = 0) := by
  refine ⟨?_, ?_, ?_, ?_⟩
  · intro h
    rcases parseDuration_cases sc.ReadTimeout with hc | hc
    · simp [ServerConfig.GetReadTimeout, hc]
    · simp [hc] at h
  · intro h
    rcases parseDuration_cases sc.WriteTimeout with hc | hc
    · simp [ServerConfig.GetWriteTimeout, hc]
    · simp [hc] at h
  · intro h
    rcases parseDuration_cases pc.TaskTimeout with hc | hc
    · simp [ProcessingConfig.GetTaskTimeout, hc]
    · simp [hc] at h
  · intro h
    rcases parseDuration_cases pc.CleanupAge with hc | hc
    · simp [ProcessingConfig.GetCleanupAge, hc]
    · simp [hc] at h

/-- The configuration of the service tests (service_test.go). -/
def cfgEx : FFmpegConfig :=
  { BinaryPath := "/usr/bin/ffmpeg",
    AllowedOutputFormats := ["mp4", "webm", "mkv", "avi", "mp3"],
    AllowedVideoCodecs := ["libx264", "libx265", "libvpx", "copy"],
    AllowedAudioCodecs := ["aac", "libmp3lame", "libopus", "copy"],
    AllowedPresets := ["ultrafast", "fast", "medium", "slow"],
    MaxResolution := "3840x2160", MaxFramerate := 120,
    MaxWidth := 3840, MaxHeight := 2160 }

/-- Witness for C1 at the test configuration: a disallowed format "flv" is
rejected with the format error, and a minimal "mp4" task passes. -/
theorem C1_witness :
    ValidateTask cfgEx { OutputFormat := "flv" } =
      .error (.outputFormatNotAllowed "flv" cfgEx.AllowedOutputFormats) ∧
    ValidateTask cfgEx { OutputFormat := "mp4" } = .ok () :=
  ⟨(C1_output_format_gate cfgEx { OutputFormat := "flv" }).1 (by decide),
   (C1_output_format_gate cfgEx { OutputFormat := "mp4" }).2 (by decide)
     rfl rfl rfl rfl rfl rfl rfl rfl⟩

/-- Witness for C3 at the test configuration: negative width with positive
height, 8K width over the 3840 maximum, height over the 2160 maximum, and
the skipped check at width = height = 0. -/
theorem C3_witness :
    ValidateTask cfgEx { OutputFormat := "mp4", Width := -1920, Height := 1080 } =
      .error (.resolutionNotPositive (-1920) 1080) ∧
    ValidateTask cfgEx { OutputFormat := "mp4", Width := 7680, Height := 4320 } =
      .error (.widthExceedsMax 7680 3840) ∧
    ValidateTask cfgEx { OutputFormat := "mp4", Width := 1920, Height := 4320 } =
      .error (.heightExceedsMax 4320 2160) ∧
    ValidateTask { cfgEx with MaxWidth := 1, MaxHeight := 1 } { OutputFormat := "mp4" } =
      ValidateTask cfgEx { OutputFormat := "mp4" } :=
  ⟨(C3_resolution_checks cfgEx { OutputFormat := "mp4", Width := -1920, Height := 1080 }
      (by decide) rfl rfl rfl).1 (by decide),
   (C3_resolution_checks cfgEx { OutputFormat := "mp4", Width := 7680, Height := 4320 }
      (by decide) rfl rfl rfl).2.1 (by decide) (by decide) (by decide),
   (C3_resolution_checks cfgEx { OutputFormat := "mp4", Width := 1920, Height := 4320 }
      (by decide) rfl rfl rfl).2.2.1 (by decide) (by decide) (by decide) (by decide),
   (C3_resolution_checks cfgEx { OutputFormat := "mp4" }
      (by decide) rfl rfl rfl).2.2.2 rfl rfl 1 1⟩

/-- Witness for C4 at the test configuration: negative video bitrate fails
with "video bitrate" context, negative audio bitrate with "audio bitrate"
context, and positive (or zero) bitrates pass. -/
theorem C4_witness :
    ValidateTask cfgEx { OutputFormat := "mp4", VideoBitrate := -2000000 } =
      .error (.wrap "video bitrate" (.bitrateNotPositive (-2000000))) ∧
    ValidateTask cfgEx { OutputFormat := "mp4", AudioBitrate := -128000 } =
      .error (.wrap "audio bitrate" (.bitrateNotPositive (-128000))) ∧
    ValidateTask cfgEx
        { OutputFormat := "mp4", VideoBitrate := 2000000, AudioBitrate := 128000 } =
      .ok () :=
  ⟨(C4_bitrate_checks cfgEx { OutputFormat := "mp4", VideoBitrate := -2000000 }
      (by decide) rfl rfl rfl rfl rfl rfl).1 (by decide),
   (C4_bitrate_checks cfgEx { OutputFormat := "mp4", AudioBitrate := -128000 }
      (by decide) rfl rfl rfl rfl rfl rfl).2.1 (by decide) (by decide),
   (C4_bitrate_checks cfgEx
      { OutputFormat := "mp4", VideoBitrate := 2000000, AudioBitrate := 128000 }
      (by decide) rfl rfl rfl rfl rfl rfl).2.2 (by decide) (by decide)⟩

/-- Witness for C8 at the test configuration: framerate 0 skips the check
(result independent of the maximum, validation succeeds), framerate 30
passes (1 ≤ 30 ≤ 120), and framerate 240 fails with the exceeds-maximum
error. -/
theorem C8_witness :
    ValidateTask { cfgEx with MaxFramerate := 5 } { OutputFormat := "mp4" } =
      ValidateTask cfgEx { OutputFormat := "mp4" } ∧
    ValidateTask cfgEx { OutputFormat := "mp4" } = .ok () ∧
    ValidateTask cfgEx { OutputFormat := "mp4", Framerate := 30 } = .ok () ∧
    ValidateTask cfgEx { OutputFormat := "mp4", Framerate := 240 } =
      .error (.framerateExceedsMax 240 120) :=
  ⟨((C8_framerate_checks cfgEx { OutputFormat := "mp4" }
      (by decide) rfl rfl rfl rfl rfl rfl rfl).1 (by decide)).1 5,
   ((C8_framerate_checks cfgEx { OutputFormat := "mp4" }
      (by decide) rfl rfl rfl rfl rfl rfl rfl).1 (by decide)).2,
   ((C8_framerate_checks cfgEx { OutputFormat := "mp4", Framerate := 30 }
      (by decide) rfl rfl rfl rfl rfl rfl rfl).2.1 (by decide)).mpr (by decide),
   (C8_framerate_checks cfgEx { OutputFormat := "mp4", Framerate := 240 }
      (by decide) rfl rfl rfl rfl rfl rfl rfl).2.2 (by decide) (by decide)⟩

/-- Server and processing configs with malformed duration strings, for the
C10 witness. -/
def scEx : ServerConfig :=
  { Port := 8080, ReadTimeout := "abc", WriteTimeout := "5x",
    BindAddress := "0.0.0.0" }

def pcEx : ProcessingConfig :=
  { GlobalMaxParallelTasks := 4, WorkerCount := 2, MaxFileSizeMB := 500,
    TaskTimeout := "1.2.3", CleanupAge := "" }

/-- Witness for C10: on the malformed duration strings "abc", "5x", "1.2.3"
and "" the parser errors and each accessor returns the zero duration. -/
theorem C10_witness :
    scEx.GetReadTimeout = 0 ∧ scEx.GetWriteTimeout = 0 ∧
    pcEx.GetTaskTimeout = 0 ∧ pcEx.GetCleanupAge = 0 :=
  ⟨(C10_duration_accessors scEx pcEx).1 (by rfl),
   (C10_duration_accessors scEx pcEx).2.1 (by rfl),
   (C10_duration_accessors scEx pcEx).2.2.1 (by rfl),
   (C10_duration_accessors scEx pcEx).2.2.2 (by rfl)⟩

end Ffmpegbox
